import Mathlib

/-!
# Verification of the deployment scheduling / retry engine of
# tools/cloud-build/daily-tests/hpc-image/image_tester.py

Shallow embedding of the control flow of `run_tests`, `deploy_tests`,
`get_latest_n_images` and `test_exit`.  External `ghpc` / `gcloud`
invocations are abstracted by an oracle giving, per attempt, the outcome of
the `ghpc deploy` subprocess (normal completion, or a raised
`SubprocessError` carrying its message text).  Side effects
(deployment creation, teardown registration via `destroy_deployment`,
serial-console diagnostic capture, `time.sleep` calls) are recorded in an
explicit trace.  Deployment handles are modelled by the per-attempt counter:
`create_deployment` generates a fresh unique name (uuid) on every attempt,
so attempt number `k` stands for the `k`-th handle.  Real time in
`test_exit`'s drain loop is abstracted by a completion-time map for the
launched destroy processes.
-/

/-- Outcome of the external `ghpc deploy` subprocess for one attempt:
normal completion, or a raised `SubprocessError` with its message text. -/
inductive DeployOut where
  | ok : DeployOut
  | err : String → DeployOut
deriving DecidableEq

/-- Per-run oracle: the deploy outcome of the `k`-th attempt of the run. -/
abbrev Oracle := Nat → DeployOut

/-- The stockout marker matched at line 226 of image_tester.py. -/
def stockoutMarker : String := "does not have enough resources"

/-- The quota marker matched at line 230 of image_tester.py. -/
def quotaMarker : String := "Error waiting for instance to create: Quota"

/-- Python's substring test `pat in s`. -/
def strContains (s pat : String) : Bool :=
  s.toList.tails.any (fun t => pat.toList.isPrefixOf t)

/-- Failure categories produced by the classification in `deploy_tests`. -/
inductive FailKind where
  | Stockout : FailKind
  | QuotaExceeded : FailKind
  | OtherFailure : FailKind
deriving DecidableEq

/-- The `if/elif/else` substring classification of the caught
`SubprocessError` text in `deploy_tests` (lines 226-234): the stockout
marker is checked first, then the quota marker, else it is an other
failure. -/
def classify (e : String) : FailKind :=
  if strContains e stockoutMarker then .Stockout
  else if strContains e quotaMarker then .QuotaExceeded
  else .OtherFailure

/-- Whether a deploy outcome is a failure classified as a stockout. -/
def deployStockout : DeployOut → Bool
  | .ok => false
  | .err m => strContains m stockoutMarker

/-- The result strings `deploy_tests` returns to `run_tests`. -/
def resSuccess : String := "success"

/-- Result string for the stockout branch of `deploy_tests`. -/
def resStockout : String := "stockout"

/-- Result string for the quota branch of `deploy_tests`. -/
def resQuota : String := "quota"

/-- `run_tests` initialises `res` to the empty string (line 317). -/
def resInit : String := ""

/-- Observable events of a run.  `ctr` is the number of attempts made so
far (fresh deployment handles 0, 1, 2, ...); `teardowns` records, in
order, the handles for which `destroy_deployment` was called (each call
appends one entry to the global `destroy_procs` list); `sleeps` records
the durations passed to `time.sleep` between passes; `diags` records the
handles whose serial console output was captured; `attempts` records each
attempt's handle and the zone it targeted. -/
structure Trace where
  ctr : Nat
  teardowns : List Nat
  sleeps : List Nat
  diags : List Nat
  attempts : List (Nat × String)
deriving DecidableEq

/-- The empty initial trace. -/
def t0 : Trace := ⟨0, [], [], [], []⟩

/-- `deploy_tests` (lines 220-250): run `ghpc deploy`; on success return
"success" (the success-path teardown is performed by the caller at line
328); on a `SubprocessError` classify the message: stockout and quota
destroy the deployment and return their marker word, any other failure
captures serial-console diagnostics, destroys the deployment and calls
`test_exit(1)` — modelled by returning `none`. -/
def deploy_tests (out : DeployOut) (id : Nat) (t : Trace) : Trace × Option String :=
  match out with
  | .ok => (t, some resSuccess)
  | .err m =>
    match classify m with
    | .Stockout => ({ t with teardowns := t.teardowns ++ [id] }, some resStockout)
    | .QuotaExceeded => ({ t with teardowns := t.teardowns ++ [id] }, some resQuota)
    | .OtherFailure =>
        ({ t with diags := t.diags ++ [id], teardowns := t.teardowns ++ [id] }, none)

/-- `new_zones.append(new_zones.pop(0))` (line 330): move the head of the
working list to its tail. -/
def rot {α : Type} : List α → List α
  | [] => []
  | z :: zs => zs ++ [z]

/-- Result of one execution of the inner zone loop of `run_tests`:
either `test_exit(1)` was reached inside `deploy_tests` (other failure),
or the loop finished, carrying the trace, the working list `new_zones`,
the last value of `res` and the last value of the enumerate index `cnt`. -/
inductive PassOut where
  | exited : Trace → PassOut
  | done : Trace → List String → String → Nat → PassOut
deriving DecidableEq

/-- Trace component of a `PassOut`. -/
def PassOut.trace : PassOut → Trace
  | .exited t => t
  | .done t _ _ _ => t

/-- One attempt of the zone loop body (lines 320-325): `create_deployment`
makes a fresh handle (the current counter value), then `deploy_tests`
runs. -/
def attemptStep (o : Oracle) (t : Trace) (z : String) : Trace × Option String :=
  deploy_tests (o t.ctr) t.ctr
    { t with ctr := t.ctr + 1, attempts := t.attempts ++ [(t.ctr, z)] }

/-- The inner `for cnt, zone in enumerate(zones)` loop of one pass
(lines 319-330).  Arguments: remaining zones of this pass, the enumerate
index of the next zone, the trace, and the current values of `res`, `cnt`
and `new_zones`.  On success the deployment is destroyed (line 328) and
the loop breaks; on stockout/quota the working list is rotated (line 330)
and the loop continues; an other failure exits via `test_exit(1)`. -/
def zoneLoop (o : Oracle) : List String → Nat → Trace → String → Nat → List String → PassOut
  | [], _, t, res, cnt, nz => .done t nz res cnt
  | z :: zs, idx, t, res, cnt, nz =>
    match attemptStep o t z with
    | (t2, none) => .exited t2
    | (t2, some r) =>
      if r = resSuccess then
        .done { t2 with teardowns := t2.teardowns ++ [t.ctr] } nz r idx
      else
        zoneLoop o zs (idx + 1) t2 r idx (rot nz)

/-- The backoff duration `60 * (2 ** i)` slept at line 333. -/
def wait_duration (k : Nat) : Nat := 60 * 2 ^ k

/-- The `for i in range(retries+1)` loop of `run_tests` (lines 318-333):
run one pass over `zones`; break on success, otherwise sleep the
exponential backoff duration for this pass index and continue. -/
def retryLoop (o : Oracle) (zones : List String) :
    List Nat → Trace → String → Nat → List String → PassOut
  | [], t, res, cnt, nz => .done t nz res cnt
  | i :: is, t, res, cnt, nz =>
    match zoneLoop o zones 0 t res cnt nz with
    | .exited t' => .exited t'
    | .done t' nz' res' cnt' =>
      if res' = resSuccess then .done t' nz' res' cnt'
      else retryLoop o zones is
        { t' with sleeps := t'.sleeps ++ [wait_duration i] } res' cnt' nz'

/-- Result of the whole image loop: either some `test_exit(1)` call was
reached, or all images were processed, carrying the final trace, the
final shared zone list and the final value of `cnt`. -/
inductive RunOut where
  | earlyExit : Trace → RunOut
  | finished : Trace → List String → Nat → RunOut
deriving DecidableEq

/-- Trace component of a `RunOut`. -/
def RunOut.trace : RunOut → Trace
  | .earlyExit t => t
  | .finished t _ _ => t

/-- The `for img in img_names` loop of `run_tests` (lines 314-338),
with the number of images abstracted to a count.  Per image: copy the
shared zone list into `new_zones`, reset `res`, run the retry loop over
the SAME `zones` snapshot each pass, then copy `new_zones` back into the
shared `zones` (line 334), and run the exhaustion check `cnt ==
len(zones)-1` (line 336), which calls `test_exit(1)` when it fires.
The comparison is over Python ints, hence the `Int` cast. -/
def imageLoop (o : Oracle) (retries : Nat) : Nat → Trace → List String → Nat → RunOut
  | 0, t, zones, cnt => .finished t zones cnt
  | n + 1, t, zones, cnt =>
    match retryLoop o zones (List.range (retries + 1)) t resInit cnt zones with
    | .exited t' => .earlyExit t'
    | .done t' nz res cnt' =>
      if (cnt' : Int) = (nz.length : Int) - 1 then .earlyExit t'
      else imageLoop o retries n t' nz cnt'

/-- The normalisation of the `retries` argument at lines 300-301 of
`run_tests`: `None`, negative and larger-than-6 values are all replaced
by the default 3. -/
def normRetries : Option Int → Int
  | none => 3
  | some r => if r < 0 ∨ r > 6 then 3 else r

/-- Modelled from the spec: `clamp(max_retries, 0, 6)` as the spec's
words describe the retry-bound normalisation; stated for comparison with
the source's `normRetries`. -/
def clampSpec (r : Int) : Int := max 0 (min r 6)

/-- The bounded drain timeout of `test_exit` (line 273). -/
def DRAIN_TIMEOUT : Nat := 300

/-- `test_exit(rc)` (lines 273-282): poll the pending destroy processes
until they all finish or the timeout elapses; exit 1 if some are still
pending at the timeout, else exit `rc`.  The wall-clock polling is
abstracted by `ctime h`, the time at which destroy process `h`
completes. -/
def test_exit (rc : Nat) (pending : List Nat) (ctime : Nat → Nat) : Nat :=
  if pending.all (fun h => decide (ctime h ≤ DRAIN_TIMEOUT)) then rc else 1

/-- The process exit code of the script: `run_tests(...)` followed by
`test_exit()` at line 388; any early `test_exit(1)` drains and exits 1. -/
def processExit (o : Oracle) (ctime : Nat → Nat) (retriesArg : Option Int)
    (imgs : Nat) (zones : List String) (cnt : Nat) : Nat :=
  match imageLoop o ((normRetries retriesArg).toNat) imgs t0 zones cnt with
  | .earlyExit t => test_exit 1 t.teardowns ctime
  | .finished t _ _ => test_exit 0 t.teardowns ctime

/-- Return type of `run_command` (`Union[subprocess.Popen, str]`,
line 65): a process handle when called with `wait=False`, else the
captured stdout string. -/
inductive RunCmdRet where
  | proc : Nat → RunCmdRet
  | stdout : String → RunCmdRet
deriving DecidableEq

/-- Result of `get_latest_n_images`: a returned image-name list, or the
`test_exit(1)` branch printing that no images were found. -/
inductive ImagesResult where
  | imgs : List String → ImagesResult
  | exitNoImages : ImagesResult
deriving DecidableEq

/-- Helper for Python's `str.rsplit()` with no separator: split on runs
of whitespace, dropping empty words.  `acc` holds the current word,
reversed. -/
def wordsAux : List Char → List Char → List String
  | [], acc => if acc.isEmpty then [] else [String.mk acc.reverse]
  | c :: cs, acc =>
    if c.isWhitespace then
      (if acc.isEmpty then [] else [String.mk acc.reverse]) ++ wordsAux cs []
    else wordsAux cs (c :: acc)

/-- Python's `s.rsplit()` (no separator): whitespace-separated words. -/
def pyRsplit (s : String) : List String := wordsAux s.toList []

/-- `get_latest_n_images` (lines 112-126):  `run_command` is called with
the default `wait=True`, so on subprocess success it returns the stdout
string (a raised `SubprocessError` propagates and is out of this
function).  The `isinstance(res, str)` branch splits the output and
returns it (printing a warning when fewer than `n` names were found); the
else branch — print "No images were found ... exiting" and `test_exit(1)`
— is taken only for a non-string result, i.e. a `Popen` handle. -/
def get_latest_n_images (res : RunCmdRet) (n : Nat) : ImagesResult :=
  match res with
  | .stdout s => .imgs (pyRsplit s)
  | .proc _ => .exitNoImages

/-- A deploy-error message containing the stockout marker. -/
def stockoutMsg : String := "zone does not have enough resources available"

/-- A deploy-error message containing neither marker (a hard failure). -/
def hardMsg : String := "invalid deployment blueprint"

/-- The empty stdout of a listing command that found no images. -/
def emptyStdout : String := ""

/-- A single-zone name used in concrete runs. -/
def zoneZ1 : String := "z1"

/-- Oracle for which every attempt fails with a stockout. -/
def oStockout : Oracle := fun _ => .err stockoutMsg

/-- Oracle for which every attempt succeeds. -/
def oAllOk : Oracle := fun _ => .ok

/-- Oracle for which every attempt is a hard (unclassified) failure. -/
def oHard : Oracle := fun _ => .err hardMsg

/-- Oracle whose first attempt is a stockout and all later ones succeed. -/
def oC4 : Oracle := fun k => if k = 0 then .err stockoutMsg else .ok

/-- Invariant: the registered teardowns are exactly one per created
deployment handle, in creation order. -/
def teardownInv (t : Trace) : Prop := t.teardowns = List.range t.ctr

/-! ## Helper lemmas -/

theorem rot_eq_rotate {α : Type} (l : List α) : rot l = l.rotate 1 := by
  cases l with
  | nil => simp [rot]
  | cons a l =>
    have h := List.rotate_cons_succ l a 0
    simp only [List.rotate_zero, Nat.zero_add] at h
    simpa [rot] using h.symm

theorem rotIter_eq_rotate {α : Type} (n : Nat) (l : List α) :
    rot^[n] l = l.rotate n := by
  induction n generalizing l with
  | zero => simp
  | succ n ih =>
    rw [Function.iterate_succ_apply, ih, rot_eq_rotate, List.rotate_rotate,
      Nat.add_comm 1 n]

theorem rotIter_length {α : Type} (l : List α) : rot^[l.length] l = l := by
  rw [rotIter_eq_rotate, List.rotate_length]

theorem zoneLoop_cons_stockout (o : Oracle) (z : String) (zs : List String)
    (idx : Nat) (t : Trace) (res : String) (cnt : Nat) (nz : List String) (m : String)
    (ho : o t.ctr = .err m) (hm : strContains m stockoutMarker = true) :
    zoneLoop o (z :: zs) idx t res cnt nz =
      zoneLoop o zs (idx + 1)
        { t with ctr := t.ctr + 1, teardowns := t.teardowns ++ [t.ctr],
                 attempts := t.attempts ++ [(t.ctr, z)] } resStockout idx (rot nz) := by
  simp only [zoneLoop, attemptStep, deploy_tests, ho, classify, hm, eq_self_iff_true,
    if_true]
  rw [if_neg (by decide : ¬(resStockout = resSuccess))]

/-- A pass every attempt of which is a stockout runs through the whole zone
list, rotating the working list once per zone, never touching the sleep
trace, and (when the list is non-empty) ends with `res = "stockout"` and
the enumerate index of the last zone. -/
theorem zoneLoop_stockout (o : Oracle) :
    ∀ (zs : List String) (idx : Nat) (t : Trace) (res : String) (cnt : Nat)
      (nz : List String),
      (∀ k, k < zs.length → deployStockout (o (t.ctr + k)) = true) →
      ∃ t' res' cnt',
        zoneLoop o zs idx t res cnt nz = .done t' (rot^[zs.length] nz) res' cnt' ∧
        t'.sleeps = t.sleeps ∧ t'.ctr = t.ctr + zs.length ∧
        (zs ≠ [] → res' = resStockout ∧ cnt' = idx + zs.length - 1) ∧
        (zs = [] → res' = res ∧ cnt' = cnt) := by
  intro zs
  induction zs with
  | nil =>
    intro idx t res cnt nz _
    exact ⟨t, res, cnt, rfl, rfl, by simp, fun h => absurd rfl h,
      fun _ => ⟨rfl, rfl⟩⟩
  | cons z zs ih =>
    intro idx t res cnt nz hall
    have h0 : deployStockout (o t.ctr) = true := by
      have h := hall 0 (by simp)
      simpa using h
    cases ho : o t.ctr with
    | ok => rw [ho] at h0; simp [deployStockout] at h0
    | err m =>
      rw [ho] at h0
      have hm : strContains m stockoutMarker = true := by
        simpa [deployStockout] using h0
      rw [zoneLoop_cons_stockout o z zs idx t res cnt nz m ho hm]
      obtain ⟨t', res', cnt', heq, hsl, hctr, hne, hnil⟩ :=
        ih (idx + 1)
          { t with ctr := t.ctr + 1, teardowns := t.teardowns ++ [t.ctr],
                   attempts := t.attempts ++ [(t.ctr, z)] } resStockout idx (rot nz)
          (fun k hk => by
            have h := hall (k + 1) (by simpa using Nat.succ_lt_succ hk)
            simpa [Nat.add_assoc, Nat.add_comm 1 k] using h)
      have hctr2 : t'.ctr = t.ctr + 1 + zs.length := hctr
      refine ⟨t', res', cnt', ?_, hsl, ?_, ?_, ?_⟩
      · rw [heq, List.length_cons, Function.iterate_succ_apply]
      · rw [hctr2, List.length_cons]
        omega
      · intro _
        by_cases hz : zs = []
        · subst hz
          obtain ⟨hr, hc⟩ := hnil rfl
          refine ⟨hr, ?_⟩
        
          simp only [List.length_cons, List.length_nil] at *
          omega
        · obtain ⟨hr, hc⟩ := hne hz
          have hlen : 0 < zs.length := List.length_pos.mpr hz
          refine ⟨hr, ?_⟩
          simp only [List.length_cons]
          omega
      · intro h
        exact absurd h (List.cons_ne_nil z zs)

/-- A retry loop every attempt of which is a stockout runs every pass in
`ps`, leaves the working list unchanged (one full rotation per pass),
and appends exactly the backoff durations of the passes in `ps` to the
sleep trace. -/
theorem retryLoop_stockout (o : Oracle) (zones : List String) (hzs : zones ≠ []) :
    ∀ (ps : List Nat) (t : Trace) (res : String) (cnt : Nat) (nz : List String),
      nz.length = zones.length →
      (∀ k, deployStockout (o k) = true) →
      ∃ t' res' cnt',
        retryLoop o zones ps t res cnt nz = .done t' nz res' cnt' ∧
        t'.sleeps = t.sleeps ++ ps.map wait_duration ∧
        (ps ≠ [] → res' = resStockout ∧ cnt' = zones.length - 1) ∧
        (ps = [] → res' = res ∧ cnt' = cnt) := by
  intro ps
  induction ps with
  | nil =>
    intro t res cnt nz hlen hall
    exact ⟨t, res, cnt, rfl, by simp, fun h => absurd rfl h, fun _ => ⟨rfl, rfl⟩⟩
  | cons i is ih =>
    intro t res cnt nz hlen hall
    obtain ⟨t1, res1, cnt1, heq1, hsl1, hctr1, hne1, _⟩ :=
      zoneLoop_stockout o zones 0 t res cnt nz (fun k _ => hall _)
    have hrot : rot^[zones.length] nz = nz := by
      rw [← hlen]
      exact rotIter_length nz
    rw [hrot] at heq1
    obtain ⟨hres1, hcnt1⟩ := hne1 hzs
    rw [hres1] at heq1
    simp only [retryLoop, heq1]
    rw [if_neg (by decide : ¬(resStockout = resSuccess))]
    obtain ⟨t2, res2, cnt2, heq2, hsl2, hne2, hnil2⟩ :=
      ih { t1 with sleeps := t1.sleeps ++ [wait_duration i] } resStockout cnt1 nz
        hlen hall
    have hsl2b : t2.sleeps = (t1.sleeps ++ [wait_duration i]) ++ is.map wait_duration :=
      hsl2
    refine ⟨t2, res2, cnt2, heq2, ?_, ?_, ?_⟩
    · rw [hsl2b, hsl1, List.append_assoc, List.singleton_append, List.map_cons]
    · intro _
      by_cases his : is = []
      · obtain ⟨hr2, hc2⟩ := hnil2 his
        refine ⟨by rw [hr2], ?_⟩
        omega
      · exact hne2 his
    · intro h
      exact absurd h (List.cons_ne_nil i is)

/-- `teardownInv` is preserved by the zone loop: every attempt, whatever
its outcome, registers exactly one teardown for its fresh handle. -/
theorem zoneLoop_teardownInv (o : Oracle) :
    ∀ (zs : List String) (idx : Nat) (t : Trace) (res : String) (cnt : Nat)
      (nz : List String), teardownInv t →
      teardownInv (zoneLoop o zs idx t res cnt nz).trace := by
  intro zs
  induction zs with
  | nil => intro idx t res cnt nz ht; exact ht
  | cons z zs ih =>
    intro idx t res cnt nz ht
    have hstep : ∀ l : List Nat, l = List.range t.ctr → l ++ [t.ctr] = List.range (t.ctr + 1) := by
      intro l hl
      rw [hl, List.range_succ]
    cases ho : o t.ctr with
    | ok =>
      simp only [zoneLoop, attemptStep, deploy_tests, ho]
      exact hstep t.teardowns ht
    | err m =>
      cases hc : classify m with
      | Stockout =>
        simp only [zoneLoop, attemptStep, deploy_tests, ho, hc]
        rw [if_neg (by decide : ¬(resStockout = resSuccess))]
        exact ih (idx + 1) _ resStockout idx (rot nz) (hstep t.teardowns ht)
      | QuotaExceeded =>
        simp only [zoneLoop, attemptStep, deploy_tests, ho, hc]
        rw [if_neg (by decide : ¬(resQuota = resSuccess))]
        exact ih (idx + 1) _ resQuota idx (rot nz) (hstep t.teardowns ht)
      | OtherFailure =>
        simp only [zoneLoop, attemptStep, deploy_tests, ho, hc]
        exact hstep t.teardowns ht

/-- `teardownInv` is preserved by the retry loop. -/
theorem retryLoop_teardownInv (o : Oracle) (zones : List String) :
    ∀ (ps : List Nat) (t : Trace) (res : String) (cnt : Nat) (nz : List String),
      teardownInv t → teardownInv (retryLoop o zones ps t res cnt nz).trace := by
  intro ps
  induction ps with
  | nil => intro t res cnt nz ht; exact ht
  | cons i is ih =>
    intro t res cnt nz ht
    have hz := zoneLoop_teardownInv o zones 0 t res cnt nz ht
    simp only [retryLoop]
    cases hzz : zoneLoop o zones 0 t res cnt nz with
    | exited t' =>
      rw [hzz] at hz
      exact hz
    | done t' nz' res' cnt' =>
      rw [hzz] at hz
      show teardownInv (if res' = resSuccess then PassOut.done t' nz' res' cnt'
        else retryLoop o zones is
          { t' with sleeps := t'.sleeps ++ [wait_duration i] } res' cnt' nz').trace
      by_cases hs : res' = resSuccess
      · rw [if_pos hs]
        exact hz
      · rw [if_neg hs]
        exact ih _ res' cnt' nz' (by simpa [teardownInv, PassOut.trace] using hz)

/-- `teardownInv` is preserved by the image loop. -/
theorem imageLoop_teardownInv (o : Oracle) (retries : Nat) :
    ∀ (n : Nat) (t : Trace) (zones : List String) (cnt : Nat),
      teardownInv t → teardownInv (imageLoop o retries n t zones cnt).trace := by
  intro n
  induction n with
  | zero => intro t zones cnt ht; exact ht
  | succ n ih =>
    intro t zones cnt ht
    have hr := retryLoop_teardownInv o zones (List.range (retries + 1)) t resInit cnt
      zones ht
    simp only [imageLoop]
    cases hrr : retryLoop o zones (List.range (retries + 1)) t resInit cnt zones with
    | exited t' =>
      rw [hrr] at hr
      exact hr
    | done t' nz res cnt' =>
      rw [hrr] at hr
      show teardownInv (if (cnt' : Int) = (nz.length : Int) - 1 then RunOut.earlyExit t'
        else imageLoop o retries n t' nz cnt').trace
      by_cases hcnt : (cnt' : Int) = (nz.length : Int) - 1
      · rw [if_pos hcnt]
        exact hr
      · rw [if_neg hcnt]
        exact ih t' nz cnt' (by simpa [teardownInv, PassOut.trace] using hr)

/-- One-image unfolding of the image loop. -/
theorem imageLoop_one (o : Oracle) (retries : Nat) (t : Trace) (zones : List String)
    (cnt : Nat) :
    imageLoop o retries 1 t zones cnt =
      match retryLoop o zones (List.range (retries + 1)) t resInit cnt zones with
      | .exited t' => .earlyExit t'
      | .done t' nz res cnt' =>
        if (cnt' : Int) = (nz.length : Int) - 1 then .earlyExit t'
        else imageLoop o retries 0 t' nz cnt' := rfl

/-! ## Claims -/

/-- Claim C1 (refuted by the code, exhibiting the bug): with a single zone
and one image whose very first deploy attempt succeeds, and with every
destroy process completing immediately (well within the drain timeout),
the run nevertheless reaches the `cnt == len(zones)-1` check with `cnt`
equal to the index of the last zone, takes the "Could not find a suitable
zone" `test_exit(1)` branch, and the process exit code is 1 — although
every image succeeded and teardown was clean, where the claim requires
exit code 0. -/
theorem success_single_zone_exits_nonzero :
    processExit oAllOk (fun _ => 0) (some 3) 1 ["us-central1-a"] 1 = 1 ∧
    imageLoop oAllOk 3 1 t0 ["us-central1-a"] 1 =
      .earlyExit ⟨1, [0], [], [], [(0, "us-central1-a")]⟩ :=
  ⟨rfl, rfl⟩

/-- Claim C2 counterexample: for `max_retries = 7` the bound actually used
by the code is the default 3, not `clamp(7, 0, 6) = 6`. -/
theorem normRetries_not_clamp : normRetries (some 7) ≠ clampSpec 7 := by decide

/-- Claim C2 (amended): the retry bound actually used is `max_retries`
itself when it lies in 0..6 and the default 3 otherwise (`None` included);
out-of-range values are replaced by the default, not clamped and not
rejected.  The attempt loop's pass indices are exactly those `i` with
`i <= bound`. -/
theorem normRetries_amended (r : Int) :
    normRetries (some r) = (if 0 ≤ r ∧ r ≤ 6 then r else 3) ∧
    normRetries none = 3 ∧
    (∀ i : Nat, i ∈ List.range ((normRetries (some r)).toNat + 1) ↔
      (i : Int) ≤ normRetries (some r)) := by
  have hub : normRetries (some r) = (if r < 0 ∨ r > 6 then (3 : Int) else r) := rfl
  refine ⟨?_, rfl, ?_⟩
  · rw [hub]
    by_cases h1 : r < 0 ∨ r > 6
    · rw [if_pos h1, if_neg (by omega)]
    · rw [if_neg h1, if_pos (by omega)]
  · intro i
    have h0 : 0 ≤ normRetries (some r) := by
      rw [hub]
      by_cases h1 : r < 0 ∨ r > 6
      · rw [if_pos h1]
        omega
      · rw [if_neg h1]
        omega
    rw [List.mem_range]
    omega

/-- Claim C3 counterexample: a run of TWO images in which the first
image's first attempt is an unclassified (other) failure makes exactly one
attempt in total and exits the process early — the second image is never
processed, where the claim requires processing of remaining images to
continue unaffected. -/
theorem other_failure_aborts_run :
    imageLoop oHard 3 2 t0 ["z1"] 1 = .earlyExit ⟨1, [0], [], [0], [(0, "z1")]⟩ ∧
    (imageLoop oHard 3 2 t0 ["z1"] 1).trace.attempts.length = 1 :=
  ⟨rfl, rfl⟩

/-- Claim C3 (amended): for an image whose deploy attempt is classified as
an other failure, the orchestrator captures diagnostics for the failed
handle, registers exactly one teardown for it, and immediately calls
`test_exit(1)`: no further zones or passes are attempted for that image,
and no remaining images are processed — the whole run is aborted. -/
theorem other_failure_behaviour (o : Oracle) (retries n : Nat) (t : Trace)
    (z : String) (zs : List String) (cnt : Nat) (m : String)
    (ho : o t.ctr = .err m) (hm : classify m = .OtherFailure) :
    imageLoop o retries (n + 1) t (z :: zs) cnt =
      .earlyExit { t with ctr := t.ctr + 1, teardowns := t.teardowns ++ [t.ctr], diags := t.diags ++ [t.ctr], attempts := t.attempts ++ [(t.ctr, z)] } := by
  have hpass : zoneLoop o (z :: zs) 0 t resInit cnt (z :: zs) =
      .exited { t with ctr := t.ctr + 1, teardowns := t.teardowns ++ [t.ctr], diags := t.diags ++ [t.ctr], attempts := t.attempts ++ [(t.ctr, z)] } := by
    simp only [zoneLoop, attemptStep, deploy_tests, ho, hm]
  have hretry : retryLoop o (z :: zs) (List.range (retries + 1)) t resInit cnt
      (z :: zs) =
      .exited { t with ctr := t.ctr + 1, teardowns := t.teardowns ++ [t.ctr], diags := t.diags ++ [t.ctr], attempts := t.attempts ++ [(t.ctr, z)] } := by
    rw [List.range_succ_eq_map]
    simp only [retryLoop, hpass]
  simp only [imageLoop, hretry]

/-- Witness for the amended claim C3 at a concrete input. -/
theorem other_failure_behaviour_witness :
    imageLoop oHard 0 1 t0 [zoneZ1] 5 =
      .earlyExit { t0 with ctr := t0.ctr + 1, teardowns := t0.teardowns ++ [t0.ctr], diags := t0.diags ++ [t0.ctr], attempts := t0.attempts ++ [(t0.ctr, zoneZ1)] } :=
  other_failure_behaviour oHard 0 0 t0 zoneZ1 [] 5 hardMsg rfl rfl

/-- Claim C4 counterexample: with zones `[a, b, c]` and two images, where
the first image stockouts in zone `a` and then succeeds in zone `b`, the
second image's first attempt (handle 2) is made in zone `b` — the shared
zone list was set to the rotated `[b, c, a]` when the first image's loop
ended — where the claim requires every image's pass 0 to start from the
caller's original ordered list, i.e. zone `a`. -/
theorem rotation_leaks_across_images :
    (imageLoop oC4 0 2 t0 ["a", "b", "c"] 9).trace.attempts =
      [(0, "a"), (1, "b"), (2, "b")] ∧
    imageLoop oC4 0 2 t0 ["a", "b", "c"] 9 =
      .finished ⟨3, [0, 1, 2], [], [], [(0, "a"), (1, "b"), (2, "b")]⟩
        ["b", "c", "a"] 0 :=
  ⟨rfl, rfl⟩

/-- Claim C4 (amended): each image's retry loop iterates the zone-list
snapshot taken when the image's processing began (the caller's original
list for the first image only); when an image's loop ends without the
exhaustion exit, the rotated working list `new_zones` is copied back into
the shared zone variable, so rotations performed while testing one image
determine the zone order used for the next image. -/
theorem zone_rotation_carries_over (o : Oracle) (retries n : Nat) (t t' : Trace)
    (zones nz : List String) (cnt cnt' : Nat) (res : String)
    (h : retryLoop o zones (List.range (retries + 1)) t resInit cnt zones =
      .done t' nz res cnt')
    (h2 : (cnt' : Int) ≠ (nz.length : Int) - 1) :
    imageLoop o retries (n + 1) t zones cnt = imageLoop o retries n t' nz cnt' := by
  simp only [imageLoop, h, if_neg h2]

/-- Witness for the amended claim C4 at a concrete input: the first
image's rotations hand the list `[b, c, a]` to the rest of the run. -/
theorem zone_rotation_carries_over_witness :
    imageLoop oC4 0 1 t0 ["a", "b", "c"] 9 =
      imageLoop oC4 0 0 ⟨2, [0, 1], [], [], [(0, "a"), (1, "b")]⟩ ["b", "c", "a"] 1 :=
  zone_rotation_carries_over oC4 0 0 t0 ⟨2, [0, 1], [], [], [(0, "a"), (1, "b")]⟩
    ["a", "b", "c"] ["b", "c", "a"] 9 1 resSuccess rfl (by decide)

/-- Claim C5: classification of a raw deploy-error string (the empty
string included) always yields exactly one of Stockout, QuotaExceeded or
OtherFailure: Stockout iff the text contains the stockout marker,
QuotaExceeded iff it contains the quota marker but not the stockout
marker, OtherFailure iff it contains neither — the stockout check takes
precedence over the quota check. -/
theorem classify_spec (e : String) :
    (classify e = .Stockout ∨ classify e = .QuotaExceeded ∨
      classify e = .OtherFailure) ∧
    (classify e = .Stockout ↔ strContains e stockoutMarker = true) ∧
    (classify e = .QuotaExceeded ↔
      strContains e quotaMarker = true ∧ strContains e stockoutMarker = false) ∧
    (classify e = .OtherFailure ↔
      strContains e stockoutMarker = false ∧ strContains e quotaMarker = false) := by
  unfold classify
  cases hs : strContains e stockoutMarker <;>
    cases hq : strContains e quotaMarker <;> simp

/-- Claim C6: a pass over a zone list all of whose attempts fail with a
stockout (each failure rotating the head of the working list to its tail)
ends with the working list equal to the original list: the first element
was moved to the tail once per zone, i.e. `length` times. -/
theorem pass_all_stockout_rotation (o : Oracle) (zs : List String) (t : Trace)
    (res : String) (cnt : Nat)
    (hall : ∀ k, k < zs.length → deployStockout (o (t.ctr + k)) = true) :
    ∃ t' res' cnt', zoneLoop o zs 0 t res cnt zs = .done t' zs res' cnt' := by
  obtain ⟨t', res', cnt', heq, _, _, _, _⟩ :=
    zoneLoop_stockout o zs 0 t res cnt zs hall
  rw [rotIter_length] at heq
  exact ⟨t', res', cnt', heq⟩

/-- Witness for claim C6 at a concrete input. -/
theorem pass_all_stockout_rotation_witness :
    ∃ t' res' cnt',
      zoneLoop oStockout ["a", "b"] 0 t0 resInit 7 ["a", "b"] =
        .done t' ["a", "b"] res' cnt' :=
  pass_all_stockout_rotation oStockout ["a", "b"] t0 resInit 7 (fun k _ => rfl)

/-- Claim C7: in every run, the teardown registrations are exactly one
per deployment handle that was created (and every created handle reaches
a terminal attempt state — success, stockout, quota or other failure — in
the same step): the registered list is `[0, 1, ..., ctr-1]` in order, so
no handle is registered twice and none is skipped. -/
theorem teardown_exactly_once (o : Oracle) (retries n : Nat) (zones : List String)
    (cnt : Nat) :
    (imageLoop o retries n t0 zones cnt).trace.teardowns =
      List.range (imageLoop o retries n t0 zones cnt).trace.ctr ∧
    ((imageLoop o retries n t0 zones cnt).trace.teardowns).Nodup := by
  have h := imageLoop_teardownInv o retries n t0 zones cnt rfl
  exact ⟨h, h ▸ List.nodup_range _⟩

/-- Claim C8: the backoff wait duration between passes is exactly
`60 * 2 ^ k` for every pass index `k` in 0..6 (base unit 60, base 2). -/
theorem wait_duration_spec (k : Nat) (h : k ≤ 6) : wait_duration k = 60 * 2 ^ k := rfl

/-- Witness for claim C8 at the largest allowed pass index. -/
theorem wait_duration_spec_witness : 6 ≤ 6 ∧ wait_duration 6 = 60 * 2 ^ 6 :=
  ⟨by decide, wait_duration_spec 6 (by decide)⟩

/-- Claim C9 (refuted by the code, exhibiting the bug): when the listing
subprocess succeeds with empty stdout (a family with no images),
`get_latest_n_images` returns the empty list and the run continues; the
"No images were found ... exiting" `test_exit(1)` branch is unreachable,
because `run_command` with the default `wait=True` always returns the
stdout string, never a process handle. -/
theorem empty_family_returns_empty_list (n : Nat) :
    get_latest_n_images (.stdout emptyStdout) n = .imgs [] ∧
    ∀ s, get_latest_n_images (.stdout s) n ≠ .exitNoImages := by
  constructor
  · rfl
  · intro s h
    simp [get_latest_n_images] at h

/-- Claim C10: an image that fails every attempt of every pass with a
stockout runs all `retries + 1` passes, sleeping the backoff duration
after EVERY pass — including the final one — so the run's sleep trace
ends with one extra backoff of `60 * 2 ^ retries` that precedes no
retry, and only then is exhaustion detected and reported via
`test_exit(1)`. -/
theorem image_exhaustion_trailing_backoff (o : Oracle) (retries : Nat) (t : Trace)
    (zones : List String) (cnt : Nat) (hzs : zones ≠ [])
    (hall : ∀ k, deployStockout (o k) = true) :
    ∃ t', imageLoop o retries 1 t zones cnt = .earlyExit t' ∧
      t'.sleeps = t.sleeps ++ (List.range (retries + 1)).map wait_duration ∧
      t'.sleeps.getLast? = some (60 * 2 ^ retries) := by
  obtain ⟨t', res', cnt', heq, hsl, hne, _⟩ :=
    retryLoop_stockout o zones hzs (List.range (retries + 1)) t resInit cnt zones
      rfl hall
  have hrneq : List.range (retries + 1) ≠ [] := List.length_pos.mp (by simp)
  obtain ⟨hres, hcnt⟩ := hne hrneq
  have hpos : 0 < zones.length := List.length_pos.mpr hzs
  have hcond : (cnt' : Int) = (zones.length : Int) - 1 := by omega
  refine ⟨t', ?_, hsl, ?_⟩
  · rw [imageLoop_one, heq]
    simp [hcond]
  · rw [hsl, List.range_succ, List.map_append]
    rw [← List.append_assoc]
    simp [wait_duration]

/-- Witness for claim C10 at a concrete input. -/
theorem image_exhaustion_trailing_backoff_witness :
    ∃ t', imageLoop oStockout 1 1 t0 ["a"] 0 = .earlyExit t' ∧
      t'.sleeps = t0.sleeps ++ (List.range (1 + 1)).map wait_duration ∧
      t'.sleeps.getLast? = some (60 * 2 ^ 1) :=
  image_exhaustion_trailing_backoff oStockout 1 t0 ["a"] 0 (by decide) (fun k => rfl)
